import Mathlib

/-!
Verification of the in-process TTL cache with statistics and LRU eviction
(`backend/services/cache_service.py` of RuneSight).

The Python classes `CacheEntry` and `CacheService` are shallowly embedded:
time (`datetime.now()`) becomes an explicit `Nat` argument threaded through
every operation, the `Dict[str, CacheEntry]` becomes an insertion-ordered
association list (Python dicts preserve insertion order, and `min` over the
keys picks the first minimal element in that order), and every mutating
method becomes a function from the service state to a new state (paired with
its return value when the method returns one).
-/

set_option autoImplicit false

namespace RuneSight

universe u

variable {α : Type u}

/-- Embedding of the Python class `CacheEntry`: payload plus TTL and access
tracking fields.  Timestamps are logical `Nat` instants. -/
structure CacheEntry (α : Type u) where
  data : α
  created_at : Nat
  expires_at : Nat
  access_count : Nat
  last_accessed : Nat
  deriving Repr, DecidableEq

/-- Embeds `CacheEntry.__init__(data, ttl_seconds)` called at instant `now`:
`created_at = now`, `expires_at = created_at + ttl_seconds`,
`access_count = 0`, `last_accessed = created_at`. -/
def CacheEntry.init (data : α) (ttl_seconds : Nat) (now : Nat) : CacheEntry α :=
  { data := data
    created_at := now
    expires_at := now + ttl_seconds
    access_count := 0
    last_accessed := now }

/-- Embeds `CacheEntry.is_expired`: `datetime.now() > self.expires_at`. -/
def CacheEntry.is_expired (e : CacheEntry α) (now : Nat) : Bool :=
  e.expires_at < now

/-- Embeds `CacheEntry.access`: increments `access_count`, stamps `last_accessed`
with the current instant, and returns the stored data. -/
def CacheEntry.access (e : CacheEntry α) (now : Nat) : CacheEntry α × α :=
  ({ e with access_count := e.access_count + 1, last_accessed := now }, e.data)

/-- The `self.stats` dictionary of `CacheService`. -/
structure Stats where
  hits : Nat
  misses : Nat
  evictions : Nat
  expirations : Nat
  deriving Repr, DecidableEq

/-- The entries dictionary: an insertion-ordered association list from keys
to cache entries (mirroring a Python `dict`, which preserves insertion
order). -/
abbrev EntryList (α : Type u) := List (String × CacheEntry α)

/-- Dictionary membership test `key in self.cache` / lookup
`self.cache[key]`: first binding for `key` in insertion order. -/
def lookupEntry : EntryList α → String → Option (CacheEntry α)
  | [], _ => none
  | p :: rest, key => if p.1 = key then some p.2 else lookupEntry rest key

/-- Membership test `key in self.cache` as a Boolean. -/
def containsKey (l : EntryList α) (key : String) : Bool :=
  (lookupEntry l key).isSome

/-- Embeds `del self.cache[key]`: removes the binding for `key` (keys are unique in
a dict; on lists we drop every pair carrying that key). -/
def eraseKey (l : EntryList α) (key : String) : EntryList α :=
  l.filter (fun p => decide (p.1 ≠ key))

/-- In-place update of the entry stored at an existing key (the effect of
mutating the `CacheEntry` object held in the dict): the binding keeps its
position. -/
def updateEntry (l : EntryList α) (key : String) (e : CacheEntry α) : EntryList α :=
  l.map (fun p => if p.1 = key then (key, e) else p)

/-- Embeds `self.cache[key] = entry`: overwrites in place when the key is present,
otherwise appends at the end (Python dict insertion order). -/
def insertEntry (l : EntryList α) (key : String) (e : CacheEntry α) : EntryList α :=
  if containsKey l key then updateEntry l key e else l ++ [(key, e)]

/-- Tests whether the second character list starts with the first, written
out so the proofs can unfold it. -/
def listStartsWith : List Char → List Char → Bool
  | [], _ => true
  | _ :: _, [] => false
  | p :: ps, c :: cs => decide (p = c) && listStartsWith ps cs

/-- Python's substring test `pat in key`. -/
def containsSubstr (key pat : String) : Bool :=
  go key.data
where
  go : List Char → Bool
    | [] => listStartsWith pat.data []
    | c :: cs => listStartsWith pat.data (c :: cs) || go cs

/-- Embedding of the Python class `CacheService`.  `max_size` is an `Int`
because the Python constructor accepts any `int`, including non-positive
ones, without validation. -/
structure CacheService (α : Type u) where
  cache : EntryList α
  max_size : Int
  stats : Stats
  last_cleanup : Nat
  deriving Repr, DecidableEq

/-- Embeds `CacheService.DEFAULT_TTL.get(cache_type, DEFAULT_TTL["default"])`:
the per-category default TTL table with fallback 600 seconds. -/
def DEFAULT_TTL (cache_type : String) : Nat :=
  if cache_type = "account" then 86400
  else if cache_type = "summoner" then 3600
  else if cache_type = "match_ids" then 300
  else if cache_type = "match_details" then 3600
  else if cache_type = "league" then 1800
  else if cache_type = "analysis" then 1800
  else if cache_type = "default" then 600
  else 600

/-- Embeds `CacheService.__init__(max_size)` at instant `now`: empty dict, zeroed
statistics, `last_cleanup = now`.  The constructor performs no validation of
`max_size` and cannot raise, so it is a total function. -/
def CacheService.init (max_size : Int) (now : Nat) : CacheService α :=
  { cache := []
    max_size := max_size
    stats := { hits := 0, misses := 0, evictions := 0, expirations := 0 }
    last_cleanup := now }

/-- Embeds `CacheService.get(key)`: on a present, unexpired key, count a hit and
return `entry.access()`; on a present but expired key, delete the entry,
count an expiration, and fall through; every non-hit path counts a miss and
returns `None`. -/
def CacheService.get (s : CacheService α) (key : String) (now : Nat) :
    CacheService α × Option α :=
  match lookupEntry s.cache key with
  | some entry =>
    if !(entry.is_expired now) then
      let av := entry.access now
      ({ s with
          cache := updateEntry s.cache key av.1
          stats := { s.stats with hits := s.stats.hits + 1 } }, some av.2)
    else
      ({ s with
          cache := eraseKey s.cache key
          stats := { s.stats with
            expirations := s.stats.expirations + 1
            misses := s.stats.misses + 1 } }, none)
  | none =>
    ({ s with stats := { s.stats with misses := s.stats.misses + 1 } }, none)

/-- The key scanned out by
`min(self.cache.keys(), key=lambda k: self.cache[k].last_accessed)` together
with its `last_accessed` stamp: the first key of minimal `last_accessed` in
iteration (= insertion) order, `none` on an empty dict. -/
def lruFold : EntryList α → Option (String × Nat)
  | [] => none
  | p :: rest =>
    match lruFold rest with
    | none => some (p.1, p.2.last_accessed)
    | some (k, t) =>
      if t < p.2.last_accessed then some (k, t) else some (p.1, p.2.last_accessed)

/-- Embeds `CacheService._evict_lru`: no-op on an empty cache, otherwise deletes
the first key of minimal `last_accessed` and counts an eviction. -/
def CacheService.evict_lru (s : CacheService α) : CacheService α :=
  match lruFold s.cache with
  | none => s
  | some kt =>
    { s with
        cache := eraseKey s.cache kt.1
        stats := { s.stats with evictions := s.stats.evictions + 1 } }

/-- Embeds `CacheService._periodic_cleanup`: throttled to once per 300 seconds;
when due, deletes every expired entry, counts each as an expiration, and
stamps `last_cleanup`. -/
def CacheService.periodic_cleanup (s : CacheService α) (now : Nat) : CacheService α :=
  if now - s.last_cleanup < 300 then s
  else
    let expired := s.cache.filter (fun p => p.2.is_expired now)
    { s with
        cache := s.cache.filter (fun p => !(p.2.is_expired now))
        stats := { s.stats with expirations := s.stats.expirations + expired.length }
        last_cleanup := now }

/-- Embeds `CacheService.set(key, data, ttl_seconds, cache_type)`: resolve the TTL
(explicit value or category default), evict the LRU entry whenever
`len(self.cache) >= self.max_size` (the source does not check whether `key`
is already present), store a fresh `CacheEntry`, then run the periodic
cleanup. -/
def CacheService.set (s : CacheService α) (key : String) (data : α)
    (ttl_seconds : Option Nat) (cache_type : String) (now : Nat) : CacheService α :=
  let ttl := ttl_seconds.getD (DEFAULT_TTL cache_type)
  let s1 := if s.max_size ≤ (s.cache.length : Int) then s.evict_lru else s
  let s2 := { s1 with cache := insertEntry s1.cache key (CacheEntry.init data ttl now) }
  s2.periodic_cleanup now

/-- Embeds `CacheService.delete(key)`: removes the binding when present and reports
whether a removal happened. -/
def CacheService.delete (s : CacheService α) (key : String) : CacheService α × Bool :=
  if containsKey s.cache key then ({ s with cache := eraseKey s.cache key }, true)
  else (s, false)

/-- Embeds `CacheService.clear()`: `self.cache.clear()`; statistics and
`last_cleanup` are untouched. -/
def CacheService.clear (s : CacheService α) : CacheService α :=
  { s with cache := [] }

/-- Embeds `CacheService.get_keys_by_pattern(pattern)`: every key containing
`pattern` as a substring, in iteration order. -/
def CacheService.get_keys_by_pattern (s : CacheService α) (pattern : String) :
    List String :=
  (s.cache.map Prod.fst).filter (fun k => containsSubstr k pattern)

/-- Embeds `CacheService.invalidate_pattern(pattern)`: deletes every key matching
the (substring) pattern and returns how many were deleted. -/
def CacheService.invalidate_pattern (s : CacheService α) (pattern : String) :
    CacheService α × Nat :=
  let keys := s.get_keys_by_pattern pattern
  ({ s with cache := keys.foldl eraseKey s.cache }, keys.length)

/-- A sequence of `set` calls: each element carries key, payload, optional
TTL, category, and the instant of the call. -/
def runSets (s : CacheService α) (calls : List (String × α × Option Nat × String × Nat)) :
    CacheService α :=
  calls.foldl (fun s c => s.set c.1 c.2.1 c.2.2.1 c.2.2.2.1 c.2.2.2.2) s

/-- A sequence of `get` calls for one key at the given instants, keeping
only the state. -/
def getMany (s : CacheService α) (key : String) (times : List Nat) : CacheService α :=
  times.foldl (fun s t => (s.get key t).1) s

/-- A shared concrete cache state used to instantiate several hypotheses. -/
def demoCache : CacheService Int :=
  ((CacheService.init 5 0).set "a" 1 (some 100) "default" 0).set "b" 2 (some 100) "default" 1

/-- A cache of capacity 2 holding `"a"` and `"b"`, both unexpired. -/
def c3_s2 : CacheService Int :=
  ((CacheService.init 2 0).set "a" 1 (some 1000) "default" 0).set "b" 2 (some 1000) "default" 1

/-- Overwriting the already-present key `"b"` while `c3_s2` is at capacity. -/
def c3_s3 : CacheService Int :=
  c3_s2.set "b" 3 (some 1000) "default" 2

/-- Scenario of claim C4, after the first three insertions:
`Cache(maxSize=3)` with `set("a",1)`, `set("b",2)`, `set("c",3)`. -/
def c4_s3 : CacheService Int :=
  (((CacheService.init 3 0).set "a" 1 none "default" 1).set "b" 2
      none "default" 2).set "c" 3 none "default" 3

/-- Scenario of claim C4: the `get("a")` call (state and returned value). -/
def c4_getA : CacheService Int × Option Int := c4_s3.get "a" 4

/-- Scenario of claim C4: `set("d",4)`, which triggers an LRU eviction. -/
def c4_s5 : CacheService Int := c4_getA.1.set "d" 4 none "default" 5

/-- Scenario of claim C4: the subsequent `get("b")`. -/
def c4_getB : CacheService Int × Option Int := c4_s5.get "b" 6

/-- Scenario of claim C4: the subsequent `get("a")`. -/
def c4_getA2 : CacheService Int × Option Int := c4_getB.1.get "a" 7

/-- Scenario of claim C4: the subsequent `get("d")`. -/
def c4_getD : CacheService Int × Option Int := c4_getA2.1.get "d" 8

/-- Modelled from the spec: the "key starts with prefix" test that
`invalidateByPrefix(prefix)` is specified to use (the source instead
performs a substring match). -/
def specStartsWith (key pfx : String) : Bool :=
  listStartsWith pfx.data key.data

/-! ## Association-list lemmas -/

theorem lookupEntry_eraseKey_self (l : EntryList α) (key : String) :
    lookupEntry (eraseKey l key) key = none := by
  induction l with
  | nil => rfl
  | cons p rest ih =>
    by_cases h : p.1 = key
    · simpa [eraseKey, List.filter_cons, h] using ih
    · simpa [eraseKey, List.filter_cons, h, lookupEntry] using ih

theorem lookupEntry_eraseKey_ne (l : EntryList α) (key k : String) (h : k ≠ key) :
    lookupEntry (eraseKey l key) k = lookupEntry l k := by
  induction l with
  | nil => rfl
  | cons p rest ih =>
    by_cases hp : p.1 = key
    · have hkey : ¬key = k := fun hh => h hh.symm
      simpa [eraseKey, List.filter_cons, hp, lookupEntry, hkey] using ih
    · by_cases hk : p.1 = k
      · simp [eraseKey, List.filter_cons, hp, lookupEntry, hk, h]
      · simpa [eraseKey, List.filter_cons, hp, lookupEntry, hk] using ih

theorem lookupEntry_updateEntry (l : EntryList α) (key : String) (x : CacheEntry α) :
    lookupEntry (updateEntry l key x) key = (lookupEntry l key).map (fun _ => x) := by
  induction l with
  | nil => rfl
  | cons p rest ih =>
    by_cases h : p.1 = key
    · simp [updateEntry, lookupEntry, h]
    · simpa [updateEntry, lookupEntry, h] using ih

theorem lookupEntry_updateEntry_ne (l : EntryList α) (key k : String) (x : CacheEntry α)
    (h : k ≠ key) :
    lookupEntry (updateEntry l key x) k = lookupEntry l k := by
  induction l with
  | nil => rfl
  | cons p rest ih =>
    by_cases hp : p.1 = key
    · have hkey : ¬key = k := fun hh => h hh.symm
      simpa [updateEntry, lookupEntry, hp, hkey] using ih
    · by_cases hk : p.1 = k
      · simp [updateEntry, lookupEntry, hp, hk, h]
      · simpa [updateEntry, lookupEntry, hp, hk] using ih

theorem lookupEntry_append_singleton_ne (l : EntryList α) (key k : String)
    (e : CacheEntry α) (h : k ≠ key) :
    lookupEntry (l ++ [(key, e)]) k = lookupEntry l k := by
  induction l with
  | nil =>
    have hkey : ¬key = k := fun hh => h hh.symm
    simp [lookupEntry, hkey]
  | cons p rest ih =>
    by_cases hp : p.1 = k
    · simp [lookupEntry, hp]
    · simpa [lookupEntry, hp] using ih

theorem lookupEntry_insertEntry_ne (l : EntryList α) (key k : String)
    (e : CacheEntry α) (h : k ≠ key) :
    lookupEntry (insertEntry l key e) k = lookupEntry l k := by
  unfold insertEntry
  split
  · exact lookupEntry_updateEntry_ne l key k e h
  · exact lookupEntry_append_singleton_ne l key k e h

theorem eraseKey_length_lt (l : EntryList α) (key : String)
    (p : String × CacheEntry α) (hp : p ∈ l) (hk : p.1 = key) :
    (eraseKey l key).length < l.length := by
  refine List.length_filter_lt_length_iff_exists.mpr ⟨p, hp, ?_⟩
  simp [hk]

theorem insertEntry_length_le (l : EntryList α) (key : String) (e : CacheEntry α) :
    (insertEntry l key e).length ≤ l.length + 1 := by
  unfold insertEntry
  split
  · simp [updateEntry]
  · simp

/-! ## LRU scan lemmas -/

theorem lruFold_spec (l : EntryList α) :
    l ≠ [] → ∃ p ∈ l, lruFold l = some (p.1, p.2.last_accessed) ∧
      ∀ q ∈ l, p.2.last_accessed ≤ q.2.last_accessed := by
  induction l with
  | nil => exact fun h => absurd rfl h
  | cons p rest ih =>
    intro _
    by_cases hr : rest = []
    · subst hr
      exact ⟨p, by simp, by simp [lruFold], by simp⟩
    · obtain ⟨p', hp'm, hfold, hmin⟩ := ih hr
      by_cases hlt : p'.2.last_accessed < p.2.last_accessed
      · refine ⟨p', List.mem_cons_of_mem _ hp'm, by simp [lruFold, hfold, hlt], ?_⟩
        intro q hq
        rcases List.mem_cons.mp hq with hq | hq
        · exact hq ▸ le_of_lt hlt
        · exact hmin q hq
      · refine ⟨p, List.mem_cons_self _ _, by simp [lruFold, hfold, hlt], ?_⟩
        intro q hq
        rcases List.mem_cons.mp hq with hq | hq
        · exact hq ▸ le_refl _
        · exact le_trans (Nat.le_of_not_lt hlt) (hmin q hq)

/-! ## Structural lemmas about the service operations -/

theorem periodic_cleanup_max_size (s : CacheService α) (now : Nat) :
    (s.periodic_cleanup now).max_size = s.max_size := by
  unfold CacheService.periodic_cleanup
  split <;> rfl

theorem periodic_cleanup_cache_length_le (s : CacheService α) (now : Nat) :
    (s.periodic_cleanup now).cache.length ≤ s.cache.length := by
  unfold CacheService.periodic_cleanup
  split
  · exact le_refl _
  · exact List.length_filter_le _ _

theorem periodic_cleanup_skip (s : CacheService α) (now : Nat)
    (h : now - s.last_cleanup < 300) : s.periodic_cleanup now = s := by
  unfold CacheService.periodic_cleanup
  rw [if_pos h]

theorem evict_lru_max_size (s : CacheService α) :
    s.evict_lru.max_size = s.max_size := by
  rcases h : lruFold s.cache with _ | kt <;> simp [CacheService.evict_lru, h]

theorem evict_lru_last_cleanup (s : CacheService α) :
    s.evict_lru.last_cleanup = s.last_cleanup := by
  rcases h : lruFold s.cache with _ | kt <;> simp [CacheService.evict_lru, h]

theorem evict_lru_cache_length_lt (s : CacheService α) (h : s.cache ≠ []) :
    s.evict_lru.cache.length < s.cache.length := by
  obtain ⟨p, hp, hfold, -⟩ := lruFold_spec s.cache h
  have hc : s.evict_lru.cache = eraseKey s.cache p.1 := by
    simp [CacheService.evict_lru, hfold]
  rw [hc]
  exact eraseKey_length_lt _ _ p hp rfl

theorem evict_lru_evictions (s : CacheService α) (h : s.cache ≠ []) :
    s.evict_lru.stats.evictions = s.stats.evictions + 1 := by
  obtain ⟨p, -, hfold, -⟩ := lruFold_spec s.cache h
  simp [CacheService.evict_lru, hfold]

theorem set_max_size (s : CacheService α) (key : String) (d : α)
    (ttl : Option Nat) (ct : String) (now : Nat) :
    (s.set key d ttl ct now).max_size = s.max_size := by
  unfold CacheService.set
  rw [periodic_cleanup_max_size]
  split <;> [exact evict_lru_max_size s; rfl]

theorem set_cache_length_le (s : CacheService α) (key : String) (d : α)
    (ttl : Option Nat) (ct : String) (now : Nat)
    (h1 : 1 ≤ s.max_size) (hs : (s.cache.length : Int) ≤ s.max_size) :
    ((s.set key d ttl ct now).cache.length : Int) ≤ s.max_size := by
  unfold CacheService.set
  have hstep : ∀ (s1 : CacheService α) (e0 : CacheEntry α),
      (s1.cache.length : Int) ≤ s.max_size - 1 →
      ((CacheService.periodic_cleanup { s1 with cache := insertEntry s1.cache key e0 } now).cache.length : Int) ≤
        s.max_size := by
    intro s1 e0 hlen
    have hins := insertEntry_length_le s1.cache key e0
    have hcl := periodic_cleanup_cache_length_le { s1 with cache := insertEntry s1.cache key e0 } now
    simp only at hcl
    omega
  split
  · next hcap =>
    apply hstep
    have hne : s.cache ≠ [] := by
      intro hnil
      rw [hnil] at hcap
      simp at hcap
      omega
    have hev := evict_lru_cache_length_lt s hne
    omega
  · next hcap =>
    apply hstep
    omega

/-! ## Folded deletion lemma for pattern invalidation -/

theorem foldl_eraseKey_eq_filter (keys : List String) :
    ∀ l : EntryList α,
      keys.foldl eraseKey l = l.filter (fun p => !(decide (p.1 ∈ keys))) := by
  induction keys with
  | nil =>
    intro l
    simp
  | cons k ks ih =>
    intro l
    rw [List.foldl_cons, ih (eraseKey l k)]
    unfold eraseKey
    rw [List.filter_filter]
    apply List.filter_congr
    intro p _
    by_cases h1 : p.1 = k <;> by_cases h2 : p.1 ∈ ks <;>
      simp [h1, h2, List.mem_cons]

/-! ## Claim theorems -/

/-- Claim C2: `get(key)` returns the stored value iff an entry for the key
exists and is not expired (expired meaning `now() > expiresAt`), in which
case `hits` grows by exactly 1 and `misses`, `expirations`, `evictions` are
unchanged; otherwise it returns `none` (never an exception) with `misses`
grown by exactly 1, and when the key was present but expired the entry is
additionally removed and `expirations` grows by exactly 1. -/
theorem claim_C2 (α : Type u) (s : CacheService α) (key : String) (now : Nat) :
    (∀ e : CacheEntry α, lookupEntry s.cache key = some e → e.is_expired now = false →
      (s.get key now).2 = some e.data ∧
      (s.get key now).1.stats.hits = s.stats.hits + 1 ∧
      (s.get key now).1.stats.misses = s.stats.misses ∧
      (s.get key now).1.stats.expirations = s.stats.expirations ∧
      (s.get key now).1.stats.evictions = s.stats.evictions) ∧
    (∀ e : CacheEntry α, lookupEntry s.cache key = some e → e.is_expired now = true →
      (s.get key now).2 = none ∧
      (s.get key now).1.stats.misses = s.stats.misses + 1 ∧
      (s.get key now).1.stats.hits = s.stats.hits ∧
      (s.get key now).1.stats.expirations = s.stats.expirations + 1 ∧
      (s.get key now).1.stats.evictions = s.stats.evictions ∧
      lookupEntry (s.get key now).1.cache key = none) ∧
    (lookupEntry s.cache key = none →
      (s.get key now).2 = none ∧
      (s.get key now).1.stats.misses = s.stats.misses + 1 ∧
      (s.get key now).1.stats.hits = s.stats.hits ∧
      (s.get key now).1.stats.expirations = s.stats.expirations ∧
      (s.get key now).1.stats.evictions = s.stats.evictions) := by
  refine ⟨?_, ?_, ?_⟩
  · intro e hl he
    simp [CacheService.get, hl, he, CacheEntry.access]
  · intro e hl he
    simp [CacheService.get, hl, he, lookupEntry_eraseKey_self]
  · intro hl
    simp [CacheService.get, hl]

/-- Claim C2 witness: on a concrete cache holding `"k" ↦ 7`, an unexpired
`get` returns the value and bumps `hits` to 1. -/
theorem claim_C2_witness :
    (((CacheService.init 5 0 : CacheService Int).set "k" 7 (some 100) "default" 0).get "k" 1).2 =
      some 7 ∧
    (((CacheService.init 5 0 : CacheService Int).set "k" 7 (some 100) "default" 0).get "k" 1).1.stats.hits = 1 := by
  have h := (claim_C2 Int ((CacheService.init 5 0).set "k" 7 (some 100) "default" 0) "k" 1).1
    (CacheEntry.init 7 100 0) (by decide) (by decide)
  exact ⟨h.1, h.2.1⟩

/-- Claim C6 counterexample: constructing the service with `maxSize = 0`
does not raise — it produces a fully usable instance (a value can be stored
and read back), refuting "fails fast at construction". -/
theorem claim_C6_counterexample :
    (CacheService.init 0 0 : CacheService Int).max_size = 0 ∧
    (((CacheService.init 0 0 : CacheService Int).set "a" 1 (some 100) "default" 0).get "a" 1).2 =
      some 1 := by
  decide

/-- Claim C6 amended: construction performs no validation at all — for any
`maxSize`, including values `≤ 0`, it returns an instance with an empty
store, zeroed statistics, and the given `maxSize`. -/
theorem claim_C6_amended (α : Type u) (m : Int) (now : Nat) :
    (CacheService.init m now : CacheService α).cache = [] ∧
    (CacheService.init m now : CacheService α).max_size = m ∧
    (CacheService.init m now : CacheService α).stats =
      { hits := 0, misses := 0, evictions := 0, expirations := 0 } ∧
    (CacheService.init m now : CacheService α).last_cleanup = now :=
  ⟨rfl, rfl, rfl, rfl⟩

/-- Claim C8: `clear()` empties the store unconditionally, leaves the four
cumulative statistics counters (and the rest of the service state)
unchanged, and is idempotent: clearing twice equals clearing once. -/
theorem claim_C8 (α : Type u) (s : CacheService α) :
    s.clear.cache = [] ∧
    s.clear.stats = s.stats ∧
    s.clear.max_size = s.max_size ∧
    s.clear.last_cleanup = s.last_cleanup ∧
    s.clear.clear = s.clear :=
  ⟨rfl, rfl, rfl, rfl, rfl⟩

/-- Claim C10: `delete(key)` leaves all four statistics counters (and
`max_size`, `last_cleanup`) unchanged, leaves every entry other than `key`
untouched, and returns exactly whether `key` was present. -/
theorem claim_C10 (α : Type u) (s : CacheService α) (key : String) :
    (s.delete key).1.stats = s.stats ∧
    (s.delete key).1.max_size = s.max_size ∧
    (s.delete key).1.last_cleanup = s.last_cleanup ∧
    (s.delete key).2 = containsKey s.cache key ∧
    ∀ k, k ≠ key → lookupEntry (s.delete key).1.cache k = lookupEntry s.cache k := by
  unfold CacheService.delete
  split
  · next h =>
    exact ⟨rfl, rfl, rfl, h.symm, fun k hk => lookupEntry_eraseKey_ne s.cache key k hk⟩
  · next h =>
    refine ⟨rfl, rfl, rfl, ?_, fun k hk => rfl⟩
    simp only [Bool.not_eq_true] at h
    exact h.symm

/-- Claim C10 witness: deleting `"a"` from the concrete two-entry cache
leaves the entry at `"b"` untouched. -/
theorem claim_C10_witness :
    lookupEntry (demoCache.delete "a").1.cache "b" = lookupEntry demoCache.cache "b" :=
  (claim_C10 Int demoCache "a").2.2.2.2 "b" (by decide)

/-- Claim C5 counterexample: `invalidate_pattern` matches substrings, not
prefixes: with the single key `"ab"`, invalidating pattern `"b"` removes the
entry (and counts it) even though `"ab"` does not start with `"b"`,
refuting "removes ... only ... entries whose key starts with prefix". -/
theorem claim_C5_counterexample :
    specStartsWith "ab" "b" = false ∧
    ((((CacheService.init 10 0 : CacheService Int).set "ab" 1 (some 100) "default" 0).invalidate_pattern "b")).2 = 1 ∧
    containsKey ((((CacheService.init 10 0 : CacheService Int).set "ab" 1 (some 100) "default" 0).invalidate_pattern "b")).1.cache "ab" = false := by
  refine ⟨by decide, by decide, by decide⟩

/-- Claim C5 amended: `invalidate_pattern(pattern)` removes exactly those
entries whose key contains `pattern` as a substring — all of them and only
them, other entries and the statistics being untouched — and returns the
exact number removed. -/
theorem claim_C5_amended (α : Type u) (s : CacheService α) (pat : String) :
    (s.invalidate_pattern pat).1.cache =
      s.cache.filter (fun p => !(containsSubstr p.1 pat)) ∧
    (s.invalidate_pattern pat).2 =
      (s.cache.filter (fun p => containsSubstr p.1 pat)).length ∧
    (s.invalidate_pattern pat).1.stats = s.stats ∧
    (s.invalidate_pattern pat).1.max_size = s.max_size := by
  refine ⟨?_, ?_, rfl, rfl⟩
  · show (s.get_keys_by_pattern pat).foldl eraseKey s.cache = _
    rw [foldl_eraseKey_eq_filter]
    apply List.filter_congr
    intro p hp
    have hmem : p.1 ∈ s.cache.map Prod.fst := List.mem_map_of_mem Prod.fst hp
    by_cases hc : containsSubstr p.1 pat = true
    · simp [CacheService.get_keys_by_pattern, List.mem_filter, hmem, hc]
    · simp [CacheService.get_keys_by_pattern, List.mem_filter, hc]
  · show (s.get_keys_by_pattern pat).length = _
    unfold CacheService.get_keys_by_pattern
    rw [List.filter_map, List.length_map]
    rfl

/-- Claim C3 counterexample: with capacity 2 and both `"a"` and `"b"`
stored, overwriting the already-present key `"b"` still evicts: the code
checks only `len(cache) >= max_size`, so the set evicts `"a"` (and bumps
`evictions`) even though `"b"` was being overwritten — refuting "a set that
overwrites an already-present key never removes any other entry". -/
theorem claim_C3_counterexample :
    containsKey c3_s2.cache "b" = true ∧
    containsKey c3_s2.cache "a" = true ∧
    containsKey c3_s3.cache "a" = false ∧
    c3_s3.stats.evictions = c3_s2.stats.evictions + 1 := by
  decide

/-- Claim C3 amended: `set` runs the LRU eviction whenever
`|entries| >= maxSize` at call time, regardless of whether the key is
already present (evicting exactly one entry when the store is nonempty);
only below capacity (and with the periodic cleanup throttled) does a set
evict nothing and leave every other key untouched. -/
theorem claim_C3_amended (α : Type u) (s : CacheService α) (key : String) (d : α)
    (ttl : Option Nat) (ct : String) (now : Nat)
    (hcd : now - s.last_cleanup < 300) :
    (s.max_size ≤ (s.cache.length : Int) → s.cache ≠ [] →
      (s.set key d ttl ct now).stats.evictions = s.stats.evictions + 1) ∧
    ((s.cache.length : Int) < s.max_size →
      (s.set key d ttl ct now).stats.evictions = s.stats.evictions ∧
      ∀ k, k ≠ key →
        lookupEntry (s.set key d ttl ct now).cache k = lookupEntry s.cache k) := by
  have hlc : ∀ (s1 : CacheService α) (c : EntryList α), s1.last_cleanup = s.last_cleanup →
      CacheService.periodic_cleanup { s1 with cache := c } now = { s1 with cache := c } := by
    intro s1 c h1
    apply periodic_cleanup_skip
    show now - s1.last_cleanup < 300
    rw [h1]
    exact hcd
  constructor
  · intro hcap hne
    unfold CacheService.set
    rw [if_pos hcap, hlc _ _ (evict_lru_last_cleanup s)]
    exact evict_lru_evictions s hne
  · intro hcap
    unfold CacheService.set
    rw [if_neg (not_le.mpr hcap), hlc _ _ rfl]
    exact ⟨rfl, fun k hk => lookupEntry_insertEntry_ne s.cache key k _ hk⟩

/-- Claim C3 witness: a below-capacity `set` on the concrete two-entry
cache evicts nothing and leaves the entry at `"a"` untouched. -/
theorem claim_C3_witness :
    (demoCache.set "c" 3 (some 100) "default" 2).stats.evictions = demoCache.stats.evictions ∧
    lookupEntry (demoCache.set "c" 3 (some 100) "default" 2).cache "a" =
      lookupEntry demoCache.cache "a" := by
  have h := (claim_C3_amended Int demoCache "c" 3 (some 100) "default" 2 (by decide)).2 (by decide)
  exact ⟨h.1, h.2 "a" (by decide)⟩

/-- Claim C4: when eviction is triggered (nonempty store), the removed
entry is one of minimum `last_accessed` and the `evictions` counter grows
by exactly 1; moreover the concrete scenario of the spec holds: with
capacity 3, after `set a`, `set b`, `set c`, `get a` (returning 1) and
`set d`, a `get b` returns `none` while `get a` returns 1 and `get d`
returns 4, with exactly one eviction. -/
theorem claim_C4 (s : CacheService Int) (hne : s.cache ≠ []) :
    (∃ p ∈ s.cache,
        s.evict_lru.cache = eraseKey s.cache p.1 ∧
        s.evict_lru.stats.evictions = s.stats.evictions + 1 ∧
        ∀ q ∈ s.cache, p.2.last_accessed ≤ q.2.last_accessed) ∧
    (c4_getA.2 = some 1 ∧ c4_getB.2 = none ∧ c4_getA2.2 = some 1 ∧
      c4_getD.2 = some 4 ∧ c4_s5.stats.evictions = c4_s3.stats.evictions + 1) := by
  constructor
  · obtain ⟨p, hp, hfold, hmin⟩ := lruFold_spec s.cache hne
    refine ⟨p, hp, ?_, ?_, hmin⟩
    · simp [CacheService.evict_lru, hfold]
    · simp [CacheService.evict_lru, hfold]
  · exact ⟨by decide, by decide, by decide, by decide, by decide⟩

/-- Claim C4 witness: instantiating the eviction characterisation on the
concrete three-entry scenario cache. -/
theorem claim_C4_witness :
    ∃ p ∈ c4_s3.cache,
      c4_s3.evict_lru.cache = eraseKey c4_s3.cache p.1 ∧
      c4_s3.evict_lru.stats.evictions = c4_s3.stats.evictions + 1 ∧
      ∀ q ∈ c4_s3.cache, p.2.last_accessed ≤ q.2.last_accessed :=
  (claim_C4 c4_s3 (by decide)).1

/-- Claim C7: any number of successful (pre-expiry) `get` calls never
modifies the entry's value, `created_at`, or `expires_at` — so the entry
still expires at `created_at + ttl` no matter how often it is read. -/
theorem claim_C7 (α : Type u) (s : CacheService α) (key : String) (times : List Nat)
    (e : CacheEntry α) (hl : lookupEntry s.cache key = some e)
    (hall : ∀ t ∈ times, e.is_expired t = false) :
    ∃ e', lookupEntry (getMany s key times).cache key = some e' ∧
      e'.data = e.data ∧ e'.created_at = e.created_at ∧ e'.expires_at = e.expires_at := by
  induction times generalizing s e with
  | nil => exact ⟨e, hl, rfl, rfl, rfl⟩
  | cons t rest ih =>
    have hexp : e.is_expired t = false := hall t (List.mem_cons_self t rest)
    have hstep : lookupEntry ((s.get key t).1).cache key =
        some { e with access_count := e.access_count + 1, last_accessed := t } := by
      simp [CacheService.get, hl, hexp, CacheEntry.access, lookupEntry_updateEntry]
    have hall' : ∀ t' ∈ rest,
        ({ e with access_count := e.access_count + 1, last_accessed := t } : CacheEntry α).is_expired t' = false := by
      intro t' ht'
      simpa [CacheEntry.is_expired] using hall t' (List.mem_cons_of_mem t ht')
    obtain ⟨e', h1, h2, h3, h4⟩ := ih _ _ hstep hall'
    exact ⟨e', h1, h2, h3, h4⟩

/-- Claim C7 witness: two reads at instants 3 and 4 of the concrete entry
at `"a"` leave its value, creation time and expiry unchanged. -/
theorem claim_C7_witness :
    ∃ e', lookupEntry (getMany demoCache "a" [3, 4]).cache "a" = some e' ∧
      e'.data = 1 ∧ e'.created_at = 0 ∧ e'.expires_at = 100 :=
  claim_C7 Int demoCache "a" [3, 4] (CacheEntry.init 1 100 0) (by decide) (by decide)

/-- Claim C1: for every capacity `m ≥ 1` and every sequence of `set` calls
(arbitrary keys, payloads, TTLs, categories, instants) starting from a
fresh service, the number of stored entries stays at most `m` after every
call. -/
theorem claim_C1 (α : Type u) (m : Int) (hm : 1 ≤ m) (now0 : Nat)
    (calls : List (String × α × Option Nat × String × Nat)) :
    ((runSets (CacheService.init m now0 : CacheService α) calls).cache.length : Int) ≤ m := by
  suffices h : ∀ (calls : List (String × α × Option Nat × String × Nat)) (s : CacheService α),
      s.max_size = m → (s.cache.length : Int) ≤ m →
      ((runSets s calls).cache.length : Int) ≤ m by
    apply h
    · rfl
    · show ((0 : Nat) : Int) ≤ m
      omega
  intro calls
  induction calls with
  | nil =>
    intro s hmax hlen
    exact hlen
  | cons c rest ih =>
    intro s hmax hlen
    have h1 : (1 : Int) ≤ s.max_size := hmax ▸ hm
    have hstep := set_cache_length_le s c.1 c.2.1 c.2.2.1 c.2.2.2.1 c.2.2.2.2 h1 (hmax ▸ hlen)
    have hms := set_max_size s c.1 c.2.1 c.2.2.1 c.2.2.2.1 c.2.2.2.2
    exact ih _ (by rw [hms, hmax]) (by rw [← hmax]; exact hstep)

/-- Claim C1 witness: three insertions into a fresh capacity-2 cache leave
at most 2 entries. -/
theorem claim_C1_witness :
    ((runSets (CacheService.init 2 0 : CacheService Int)
        [("a", 1, some 50, "default", 0), ("b", 2, some 50, "default", 1),
          ("c", 3, some 50, "default", 2)]).cache.length : Int) ≤ 2 :=
  claim_C1 Int 2 (by decide) 0
    [("a", 1, some 50, "default", 0), ("b", 2, some 50, "default", 1),
      ("c", 3, some 50, "default", 2)]

end RuneSight
